import Mathlib

/-!
A shallow embedding of the product-catalog data layer of
src/products/models.py: categories arranged in a tree, characteristics
attached to categories, products with attributes, and the clean/save
validation logic. The backing store the ORM queries evaluate against is
modelled as an explicit in-memory database value.
-/

deriving instance DecidableEq for Except

namespace Products

/-- Category row: id, name, slug, optional parent id, order number. -/
structure Category where
  id : Nat
  name : String
  slug : String
  parent : Option Nat
  order_number : Nat
deriving DecidableEq

/-- Characteristic row: an abstract product attribute attached to one category. -/
structure Characteristic where
  id : Nat
  category : Nat
  name : String
deriving DecidableEq

/-- ProductAttribute row. `product` is optional to model the in-memory staging
of predefined attributes before the owning product is persisted;
`characteristic` is a nullable foreign key; `value_float` is the derived
numeric projection of `value`. -/
structure ProductAttribute where
  id : Nat
  characteristic : Option Nat
  product : Option Nat
  name : String
  value : String
  value_float : Option ℚ
deriving DecidableEq

/-- Product row, with the in-memory `predefined_attributes` staging list the
module expects to be defined explicitly. `id = none` models an unsaved record. -/
structure Product where
  id : Option Nat
  name : String
  slug : String
  code : String
  brand : String
  category : Nat
  is_active : Bool
  price : ℚ
  predefined_attributes : List ProductAttribute
deriving DecidableEq

/-- The backing store: the persisted rows the ORM queries evaluate against. -/
structure Db where
  categories : List Category
  characteristics : List Characteristic
  products : List Product
  attributes : List ProductAttribute
deriving DecidableEq

/-- Foreign-key resolution of a category id against the store. -/
def getCategory (db : Db) (i : Nat) : Option Category :=
  db.categories.find? (fun c => decide (c.id = i))

/-- Category.get_top_categories: categories that do not have parents. -/
def Category.get_top_categories (db : Db) : List Category :=
  db.categories.filter (fun c => decide (c.parent = none))

/-- Category.get_siblings: all categories that have the same parent as this,
excluding the category itself (roots are siblings of the other roots). -/
def Category.get_siblings (db : Db) (c : Category) : List Category :=
  match c.parent with
  | none => (Category.get_top_categories db).filter (fun x => decide (x.id ≠ c.id))
  | some _ =>
    (db.categories.filter (fun x => decide (x.parent = c.parent))).filter
      (fun x => decide (x.id ≠ c.id))

/-- The recursive ancestor walk of Category.get_ancestors: follow the parent
foreign key upwards, yielding each parent. The generator recursion of the
source is bounded here by an explicit fuel; the fuel used by
`Category.get_ancestors` (the number of persisted categories) covers every
chain an acyclic store can produce. -/
def ancestorsFrom (db : Db) : Nat → Option Nat → List Category
  | 0, _ => []
  | _ + 1, none => []
  | fuel + 1, some pid =>
    match getCategory db pid with
    | none => []
    | some p => p :: ancestorsFrom db fuel p.parent

/-- Category.get_ancestors: all categories that have the selected category as
descendant, from the immediate parent up to the root. -/
def Category.get_ancestors (db : Db) (c : Category) : List Category :=
  ancestorsFrom db db.categories.length c.parent

/-- The recursive pre-order walk of Category.get_descendants, fuel-bounded. -/
def descendantsFrom (db : Db) : Nat → Category → List Category
  | 0, _ => []
  | fuel + 1, c =>
    (db.categories.filter (fun x => decide (x.parent = some c.id))).flatMap
      (fun child => child :: descendantsFrom db fuel child)

/-- Category.get_descendants: all categories that have the selected category
as ancestor, depth-first pre-order. -/
def Category.get_descendants (db : Db) (c : Category) : List Category :=
  descendantsFrom db db.categories.length c

/-- The reverse foreign-key query `self.characteristics.all()`. -/
def Category.characteristics (db : Db) (c : Category) : List Characteristic :=
  db.characteristics.filter (fun ch => decide (ch.category = c.id))

/-- Category.get_all_characteristics as the source writes it: start from the
category's own characteristics and, once per ancestor produced by the
ancestor walk, append `self.parent.characteristics.all()` — the direct
parent's characteristics, not the ancestor's. -/
def Category.get_all_characteristics (db : Db) (c : Category) : List Characteristic :=
  let parentChars :=
    match c.parent with
    | none => []
    | some pid =>
      match getCategory db pid with
      | none => []
      | some p => Category.characteristics db p
  (Category.get_ancestors db c).foldl (fun acc _ => acc ++ parentChars)
    (Category.characteristics db c)

/-- The collection the specification describes for `get_all_characteristics`:
the category's own characteristics plus, for each ancestor visited exactly
once by the ancestor walk, that ancestor's own characteristics. -/
def Category.spec_all_characteristics (db : Db) (c : Category) : List Characteristic :=
  (Category.get_ancestors db c).foldl (fun acc a => acc ++ Category.characteristics db a)
    (Category.characteristics db c)

/-- The kinds of ValidationError the module raises, as the spec names them.
`MissingCharacteristicCoverage` carries the names of the missing
characteristics, as enumerated in the source's message. -/
inductive ValidationError where
  | DuplicateSiblingSlug
  | IllegalCategoryChange
  | MissingCharacteristicCoverage (names : List String)
  | AttributeIdentityConflict
  | AttributeIdentityMissing
deriving DecidableEq

/-- Failures Product.clean can surface: a ValidationError, or the ORM's
DoesNotExist when a lookup of a persisted row fails. -/
inductive CleanError where
  | validation (e : ValidationError)
  | doesNotExist
deriving DecidableEq

/-- Category.clean: recompute the slug from the name (mutating the in-memory
object first), then reject when any sibling already carries that slug. The
returned pair is the mutated in-memory object together with the outcome. -/
def Category.clean (slugify unidecode : String → String) (db : Db) (c : Category) :
    Category × Except ValidationError Unit :=
  let c := { c with slug := slugify (unidecode c.name) }
  if (Category.get_siblings db c).any (fun s => decide (s.slug = c.slug)) then
    (c, .error .DuplicateSiblingSlug)
  else
    (c, .ok ())

/-- Category.save: unconditionally recompute the slug, then persist (the
persistence itself is the external ORM's; the saved field values are the
returned object's). -/
def Category.save (slugify unidecode : String → String) (c : Category) : Category :=
  { c with slug := slugify (unidecode c.name) }

/-- Product._get_all_attributes: the attributes the product already has in the
store plus the attributes predefined in memory by the user. -/
def Product._get_all_attributes (db : Db) (p : Product) : List ProductAttribute :=
  (match p.id with
   | some pid => db.attributes.filter (fun a => decide (a.product = some pid))
   | none => []) ++ p.predefined_attributes

/-- The category-change step of Product.clean: on an update of an existing
record, fetch the previously-persisted row; a changed category is only legal
when the new category is among the old category's descendants. -/
def Product.categoryChangeCheck (db : Db) (p : Product) : Except CleanError Unit :=
  match p.id with
  | none => .ok ()
  | some pid =>
    match db.products.find? (fun q => decide (q.id = some pid)) with
    | none => .error .doesNotExist
    | some prev =>
      if prev.category = p.category then .ok ()
      else
        match getCategory db prev.category with
        | none => .error .doesNotExist
        | some prevCat =>
          if (Category.get_descendants db prevCat).any (fun d => decide (d.id = p.category)) then
            .ok ()
          else .error (.validation .IllegalCategoryChange)

/-- The characteristic-coverage step of Product.clean: the set of inherited
characteristics (as computed by `Category.get_all_characteristics`) minus the
characteristics referenced by the product's attributes must be empty. -/
def Product.characteristicCheck (db : Db) (p : Product) : Except CleanError Unit :=
  match getCategory db p.category with
  | none => .error .doesNotExist
  | some cat =>
    let category_characteristics := (Category.get_all_characteristics db cat).eraseDups
    let attributes_characteristics : List (Option Nat) :=
      (Product._get_all_attributes db p).map (fun a => a.characteristic)
    let required := category_characteristics.filter
      (fun ch => decide (¬ some ch.id ∈ attributes_characteristics))
    if required.isEmpty then .ok ()
    else .error (.validation (.MissingCharacteristicCoverage (required.map (fun ch => ch.name))))

/-- Product.clean: the category-change check followed by the
characteristic-coverage check. -/
def Product.clean (db : Db) (p : Product) : Except CleanError Unit :=
  match Product.categoryChangeCheck db p with
  | .error e => .error e
  | .ok _ => Product.characteristicCheck db p

/-- Numeric value of a list of decimal digit characters. -/
def digitsToNat (cs : List Char) : Nat :=
  cs.foldl (fun acc c => acc * 10 + (c.toNat - 48)) 0

/-- Modelled from the spec: the best-effort numeric parse the Python `float`
builtin performs on the attribute's string value, modelled on optionally
signed plain decimal literals (an empty or non-numeric string fails, exactly
as `float` raises ValueError there). -/
def parseFloat (s : String) : Option ℚ :=
  let cs := s.toList
  let signBody : ℚ × List Char :=
    match cs with
    | '-' :: rest => (-1, rest)
    | '+' :: rest => (1, rest)
    | _ => (1, cs)
  let sign := signBody.1
  let body := signBody.2
  let intPart := body.takeWhile (fun ch => ch.isDigit)
  let rest := body.dropWhile (fun ch => ch.isDigit)
  match rest with
  | [] =>
    if intPart.isEmpty then none
    else some (sign * (digitsToNat intPart : ℚ))
  | '.' :: frac =>
    if frac.all (fun ch => ch.isDigit) && !(intPart.isEmpty && frac.isEmpty) then
      some (sign * ((digitsToNat intPart : ℚ) + (digitsToNat frac : ℚ) / (10 : ℚ) ^ frac.length))
    else none
  | _ => none

/-- ProductAttribute.save: try to parse `value` into `value_float`; a parse
failure is swallowed and the record is persisted unchanged. -/
def ProductAttribute.save (a : ProductAttribute) : ProductAttribute :=
  match parseFloat a.value with
  | some q => { a with value_float := some q }
  | none => a

/-- ProductAttribute.clean: a characteristic-bound attribute may not also
carry a name, and one of the two identities must be present (Python
truthiness: the characteristic counts when non-null, the name when
non-empty). -/
def ProductAttribute.clean (a : ProductAttribute) : Except ValidationError Unit :=
  if a.characteristic.isSome ∧ a.name ≠ "" then .error .AttributeIdentityConflict
  else if a.characteristic = none ∧ a.name = "" then .error .AttributeIdentityMissing
  else .ok ()

/-- Product.save: unconditionally recompute the slug, persist, then attach and
save each predefined attribute. The saved product and the saved attribute
batch are returned. -/
def Product.save (slugify unidecode : String → String) (p : Product) :
    Product × List ProductAttribute :=
  let saved := { p with slug := slugify (unidecode p.name) }
  (saved,
    p.predefined_attributes.map
      (fun a => ProductAttribute.save { a with product := saved.id }))

/-! Concrete store used by the counterexamples and witnesses: a three-level
category chain Root → Electronics → LED Lamps, a characteristic on each of
the two upper levels, and a product in the leaf category covering only the
middle level's characteristic. -/

/-- Root category (id 0). -/
def cRoot : Category :=
  { id := 0, name := "Root", slug := "root", parent := none, order_number := 0 }

/-- Middle category (id 1), child of the root. -/
def cMid : Category :=
  { id := 1, name := "Electronics", slug := "electronics", parent := some 0, order_number := 0 }

/-- Leaf category (id 2), grandchild of the root. -/
def cLeaf : Category :=
  { id := 2, name := "LED Lamps", slug := "led-lamps", parent := some 1, order_number := 0 }

/-- Characteristic "Voltage" owned by the root category. -/
def chVoltage : Characteristic := { id := 0, category := 0, name := "Voltage" }

/-- Characteristic "Weight" owned by the middle category. -/
def chWeight : Characteristic := { id := 1, category := 1, name := "Weight" }

/-- Persisted attribute of product 10 bound to the "Weight" characteristic. -/
def attrWeight : ProductAttribute :=
  { id := 0, characteristic := some 1, product := some 10, name := "",
    value := "220", value_float := none }

/-- Persisted product (id 10) in the leaf category. -/
def pLamp : Product :=
  { id := some 10, name := "Lamp", slug := "lamp", code := "L1", brand := "",
    category := 2, is_active := true, price := 10, predefined_attributes := [] }

/-- The example store. -/
def exDb : Db :=
  { categories := [cRoot, cMid, cLeaf],
    characteristics := [chVoltage, chWeight],
    products := [pLamp],
    attributes := [attrWeight] }

/-- Attribute bound to a characteristic and carrying no name. -/
def attrBoundNoName : ProductAttribute :=
  { id := 1, characteristic := some 1, product := some 10, name := "",
    value := "", value_float := none }

/-- Attribute with neither a characteristic nor a name. -/
def attrNeither : ProductAttribute :=
  { id := 2, characteristic := none, product := some 10, name := "",
    value := "", value_float := none }

/-- Attribute whose value does not parse as a number but whose value_float was
previously populated. -/
def attrNA : ProductAttribute :=
  { id := 3, characteristic := none, product := some 10, name := "Color",
    value := "N/A", value_float := some 5 }

/-- Attribute whose value parses as 19.99. -/
def attr1999 : ProductAttribute :=
  { id := 4, characteristic := none, product := some 10, name := "Price",
    value := "19.99", value_float := none }

/-- Two root categories whose names collide after slug recomputation: cDupA is
persisted with the slug the recomputation of cDupB's name also produces. -/
def cDupA : Category :=
  { id := 3, name := "Dup", slug := "Dup", parent := none, order_number := 0 }

/-- The sibling whose clean collides with cDupA. -/
def cDupB : Category :=
  { id := 4, name := "Dup", slug := "", parent := none, order_number := 0 }

/-- Store for the duplicate-sibling-slug scenario. -/
def exDbDup : Db :=
  { categories := [cDupA, cDupB], characteristics := [], products := [], attributes := [] }

/-- Claim C1: the claim states that `get_all_characteristics c` returns the
characteristics owned directly by `c` plus each ancestor's own
characteristics, each ancestor visited once. On the store `exDb` (Root with
"Voltage" → Electronics with "Weight" → LED Lamps) the code instead returns
the direct parent's characteristics once per ancestor: `[Weight, Weight]`,
never inheriting the grandparent's "Voltage", while the collection described
by the specification is `[Weight, Voltage]`. -/
theorem claim_C1 :
    Category.get_all_characteristics exDb cLeaf = [chWeight, chWeight] ∧
    Category.spec_all_characteristics exDb cLeaf = [chWeight, chVoltage] ∧
    chVoltage ∉ Category.get_all_characteristics exDb cLeaf := by decide

/-- Claim C2: the claim states that a product whose validation succeeds covers
every characteristic of its category and all ancestors. On `exDb`, product
`pLamp` sits in the leaf category, the root ancestor owns "Voltage", no
attribute of the product references "Voltage", and yet `Product.clean`
succeeds — the coverage check inherits the ancestor-walk slip of
`get_all_characteristics`. -/
theorem claim_C2 :
    Product.clean exDb pLamp = .ok () ∧
    getCategory exDb pLamp.category = some cLeaf ∧
    chVoltage ∈ Category.spec_all_characteristics exDb cLeaf ∧
    ∀ a ∈ Product._get_all_attributes exDb pLamp, a.characteristic ≠ some chVoltage.id := by
  decide

/-- Claim C4 (counterexample): the claim states that a failed numeric parse
leaves `value_float` as None for every prior state of the attribute. For the
attribute `attrNA` whose value "N/A" does not parse but whose `value_float`
was previously 5, saving leaves `value_float` at 5, not None. -/
theorem claim_C4_counterexample :
    parseFloat attrNA.value = none ∧
    (ProductAttribute.save attrNA).value_float = some 5 ∧
    some (5 : ℚ) ≠ (none : Option ℚ) := by decide

/-- Claim C4 (amended): saving parses `value` into `value_float` (so "19.99"
yields 19.99); when `value` does not parse, the failure is swallowed (save
still succeeds, returning the record) and `value_float` is left unchanged
from its prior state — in particular it is None only when it was already
None. -/
theorem claim_C4_amended (a : ProductAttribute) :
    (∀ q, parseFloat a.value = some q → (ProductAttribute.save a).value_float = some q) ∧
    (parseFloat a.value = none → ProductAttribute.save a = a) ∧
    parseFloat "19.99" = some ((1999 : ℚ)/100) ∧
    parseFloat "N/A" = none := by
  refine ⟨?_, ?_, ?_, by decide⟩
  · intro q h
    unfold ProductAttribute.save
    rw [h]
  · intro h
    unfold ProductAttribute.save
    rw [h]
  · simp [parseFloat, digitsToNat]; norm_num

/-- Claim C4 (witness): the amended theorem applied to the concrete attribute
with value "19.99". -/
theorem claim_C4_witness :
    parseFloat attr1999.value = some ((1999 : ℚ)/100) ∧
    (ProductAttribute.save attr1999).value_float = some ((1999 : ℚ)/100) := by
  have h : parseFloat attr1999.value = some ((1999 : ℚ)/100) := by
    simp [attr1999, parseFloat, digitsToNat]; norm_num
  exact ⟨h, (claim_C4_amended attr1999).1 _ h⟩

/-- Pre-assigning the recomputed slug does not change which rows the sibling
query returns: get_siblings only reads the parent and id fields. -/
theorem get_siblings_update (db : Db) (c : Category) (s : String) :
    Category.get_siblings db { c with slug := s } = Category.get_siblings db c := rfl

/-- Claim C5: Category.clean recomputes the slug from the name and fails with
DuplicateSiblingSlug exactly when some sibling (same parent, or fellow root,
the category itself excluded) already carries that slug; otherwise it
succeeds. -/
theorem claim_C5 (slugify unidecode : String → String) (db : Db) (c : Category) :
    ((Category.clean slugify unidecode db c).2 = .error .DuplicateSiblingSlug ↔
      ∃ s ∈ Category.get_siblings db c, s.slug = slugify (unidecode c.name)) ∧
    ((Category.clean slugify unidecode db c).2 = .ok () ↔
      ¬ ∃ s ∈ Category.get_siblings db c, s.slug = slugify (unidecode c.name)) := by
  have hany : ((Category.get_siblings db c).any
      (fun s => decide (s.slug = slugify (unidecode c.name))) = true) ↔
      ∃ s ∈ Category.get_siblings db c, s.slug = slugify (unidecode c.name) := by
    simp [List.any_eq_true]
  simp only [Category.clean]
  rw [get_siblings_update]
  by_cases h : ∃ s ∈ Category.get_siblings db c, s.slug = slugify (unidecode c.name)
  · rw [if_pos (hany.mpr h)]
    simp [h]
  · rw [if_neg (fun hc => h (hany.mp hc))]
    simp [h]

/-- Claim C6: ProductAttribute.clean fails with AttributeIdentityConflict
exactly when both identities are set (a non-null characteristic and a
non-empty name), fails with AttributeIdentityMissing exactly when neither is,
and succeeds exactly when one of the two is set. -/
theorem claim_C6 (a : ProductAttribute) :
    (ProductAttribute.clean a = .error .AttributeIdentityConflict ↔
      a.characteristic.isSome ∧ a.name ≠ "") ∧
    (ProductAttribute.clean a = .error .AttributeIdentityMissing ↔
      a.characteristic = none ∧ a.name = "") ∧
    (ProductAttribute.clean a = .ok () ↔
      ((a.characteristic.isSome ∧ a.name = "") ∨
        (a.characteristic = none ∧ a.name ≠ ""))) := by
  unfold ProductAttribute.clean
  by_cases hn : a.name = "" <;> cases hc : a.characteristic <;> simp [hn, hc]

/-- Claim C7: after any save, the slug of a category and of a product equals
slugify (transliterate name); the recomputation is unconditional (both save
operations are total and perform no uniqueness validation). -/
theorem claim_C7 (slugify unidecode : String → String) (c : Category) (p : Product) :
    (Category.save slugify unidecode c).slug = slugify (unidecode c.name) ∧
    (Product.save slugify unidecode p).1.slug = slugify (unidecode p.name) :=
  ⟨rfl, rfl⟩

/-- Claim C9: an empty-string name counts as absent in
ProductAttribute.clean — with a characteristic set it is the
exactly-one-identity success case, without one it is the neither-set
failure. -/
theorem claim_C9 (a : ProductAttribute) (hname : a.name = "") :
    (a.characteristic.isSome → ProductAttribute.clean a = .ok ()) ∧
    (a.characteristic = none → ProductAttribute.clean a = .error .AttributeIdentityMissing) := by
  unfold ProductAttribute.clean
  cases hc : a.characteristic <;> simp [hname, hc]

/-- Claim C9 (witness): the theorem applied to the two concrete attributes
with empty names. -/
theorem claim_C9_witness :
    attrBoundNoName.name = "" ∧ attrNeither.name = "" ∧
    ProductAttribute.clean attrBoundNoName = .ok () ∧
    ProductAttribute.clean attrNeither = .error .AttributeIdentityMissing :=
  ⟨rfl, rfl, (claim_C9 attrBoundNoName rfl).1 rfl, (claim_C9 attrNeither rfl).2 rfl⟩

/-- Claim C10: Category.clean assigns the recomputed slug to the in-memory
object before the sibling check, so whenever it fails with
DuplicateSiblingSlug the returned object already carries the colliding
slug. -/
theorem claim_C10 (slugify unidecode : String → String) (db : Db) (c : Category)
    (_h : (Category.clean slugify unidecode db c).2 = .error .DuplicateSiblingSlug) :
    (Category.clean slugify unidecode db c).1.slug = slugify (unidecode c.name) := by
  simp only [Category.clean]
  split <;> rfl

/-- Claim C10 (witness): the theorem applied to the concrete
duplicate-sibling store. -/
theorem claim_C10_witness :
    (Category.clean id id exDbDup cDupB).2 = .error .DuplicateSiblingSlug ∧
    (Category.clean id id exDbDup cDupB).1.slug = id (id cDupB.name) := by
  have h : (Category.clean id id exDbDup cDupB).2 = .error .DuplicateSiblingSlug := by decide
  exact ⟨h, claim_C10 id id exDbDup cDupB h⟩

/-- The coverage step can only fail with DoesNotExist or
MissingCharacteristicCoverage, never with IllegalCategoryChange. -/
theorem characteristicCheck_ne_illegal (db : Db) (p : Product) :
    Product.characteristicCheck db p ≠ .error (.validation .IllegalCategoryChange) := by
  unfold Product.characteristicCheck
  cases getCategory db p.category with
  | none => simp
  | some cat => simp only; split <;> simp

/-- Persisted product (id 11) in the middle category, about to be moved. -/
def pMoveOld : Product :=
  { id := some 11, name := "Mover", slug := "mover", code := "M1", brand := "",
    category := 1, is_active := true, price := 5, predefined_attributes := [] }

/-- The in-memory update of pMoveOld reassigning it to the leaf category. -/
def pMoveNew : Product := { pMoveOld with category := 2 }

/-- Store for the category-change scenario. -/
def exDbMove : Db :=
  { categories := [cRoot, cMid, cLeaf],
    characteristics := [chVoltage, chWeight],
    products := [pLamp, pMoveOld],
    attributes := [attrWeight] }

/-- Claim C3: for an existing product whose persisted row and persisted
category resolve, a category change passes the category-change validation
exactly when the new category is among the old category's descendants, and a
changed category outside that set is rejected with IllegalCategoryChange; an
unchanged category always passes the check. -/
theorem claim_C3 (db : Db) (p : Product) (pid : Nat) (prev : Product) (prevCat : Category)
    (hid : p.id = some pid)
    (hfind : db.products.find? (fun q => decide (q.id = some pid)) = some prev)
    (hcat : getCategory db prev.category = some prevCat) :
    (prev.category ≠ p.category →
      (Product.clean db p = .error (.validation .IllegalCategoryChange) ↔
        ¬ ∃ d ∈ Category.get_descendants db prevCat, d.id = p.category)) ∧
    (prev.category = p.category →
      Product.clean db p ≠ .error (.validation .IllegalCategoryChange)) := by
  have hany : ((Category.get_descendants db prevCat).any
      (fun d => decide (d.id = p.category)) = true) ↔
      ∃ d ∈ Category.get_descendants db prevCat, d.id = p.category := by
    simp [List.any_eq_true]
  constructor
  · intro hne
    have hcheck : Product.categoryChangeCheck db p =
        (if (Category.get_descendants db prevCat).any (fun d => decide (d.id = p.category)) then
          .ok () else .error (.validation .IllegalCategoryChange)) := by
      simp only [Product.categoryChangeCheck, hid, hfind, hcat, if_neg hne]
    by_cases hdesc : ∃ d ∈ Category.get_descendants db prevCat, d.id = p.category
    · unfold Product.clean
      rw [hcheck, if_pos (hany.mpr hdesc)]
      constructor
      · intro hclean
        exact absurd hclean (characteristicCheck_ne_illegal db p)
      · intro hno
        exact absurd hdesc hno
    · unfold Product.clean
      rw [hcheck, if_neg (fun hc => hdesc (hany.mp hc))]
      simp [hdesc]
  · intro heq
    have hcheck : Product.categoryChangeCheck db p = .ok () := by
      simp only [Product.categoryChangeCheck, hid, hfind, if_pos heq]
    unfold Product.clean
    rw [hcheck]
    exact characteristicCheck_ne_illegal db p

/-- Claim C3 (witness): moving product 11 from the middle category to the
leaf category — a descendant — is not rejected as an illegal category
change. -/
theorem claim_C3_witness :
    pMoveNew.id = some 11 ∧
    exDbMove.products.find? (fun q => decide (q.id = some (11 : Nat))) = some pMoveOld ∧
    getCategory exDbMove pMoveOld.category = some cMid ∧
    pMoveOld.category ≠ pMoveNew.category ∧
    (∃ d ∈ Category.get_descendants exDbMove cMid, d.id = pMoveNew.category) ∧
    Product.clean exDbMove pMoveNew ≠ .error (.validation .IllegalCategoryChange) := by
  have h := claim_C3 exDbMove pMoveNew 11 pMoveOld cMid rfl (by decide) (by decide)
  have hne : pMoveOld.category ≠ pMoveNew.category := by decide
  have hdesc : ∃ d ∈ Category.get_descendants exDbMove cMid, d.id = pMoveNew.category :=
    ⟨cLeaf, by decide, by decide⟩
  exact ⟨rfl, by decide, by decide, hne, hdesc,
    fun hc => ((h.1 hne).mp hc) hdesc⟩

/-- The ancestor walk from a missing parent link is empty at any fuel. -/
theorem ancestorsFrom_none (db : Db) : ∀ fuel, ancestorsFrom db fuel none = [] := by
  intro fuel
  cases fuel <;> rfl

/-- In a store whose parent links strictly decrease a rank (the usual witness
of acyclicity), every category the ancestor walk yields from a starting
parent id has rank at most that id's rank. -/
theorem ancestorsFrom_rank (db : Db) (rank : Nat → Nat)
    (hr : ∀ cat ∈ db.categories, ∀ q, cat.parent = some q → rank q < rank cat.id) :
    ∀ fuel pid a, a ∈ ancestorsFrom db fuel (some pid) → rank a.id ≤ rank pid := by
  intro fuel
  induction fuel with
  | zero =>
    intro pid a ha
    simp [ancestorsFrom] at ha
  | succ n ih =>
    intro pid a ha
    unfold ancestorsFrom at ha
    cases hfind : getCategory db pid with
    | none => rw [hfind] at ha; simp at ha
    | some p =>
      rw [hfind] at ha
      have hpid : p.id = pid := by
        have := List.find?_some hfind
        simpa using this
      simp only [List.mem_cons] at ha
      rcases ha with rfl | ha
      · rw [hpid]
      · cases hp : p.parent with
        | none =>
          rw [hp, ancestorsFrom_none] at ha
          simp at ha
        | some q =>
          rw [hp] at ha
          have h1 : rank a.id ≤ rank q := ih q a ha
          have hpmem : p ∈ db.categories := List.mem_of_find?_eq_some hfind
          have h2 : rank q < rank p.id := hr p hpmem q hp
          rw [hpid] at h2
          omega

/-- In a rank-decreasing store, every category the descendant walk yields has
rank strictly above the rank of the node it started from. -/
theorem descendantsFrom_rank (db : Db) (rank : Nat → Nat)
    (hr : ∀ cat ∈ db.categories, ∀ q, cat.parent = some q → rank q < rank cat.id) :
    ∀ fuel c d, d ∈ descendantsFrom db fuel c → rank c.id < rank d.id := by
  intro fuel
  induction fuel with
  | zero =>
    intro c d hd
    simp [descendantsFrom] at hd
  | succ n ih =>
    intro c d hd
    unfold descendantsFrom at hd
    simp only [List.mem_flatMap, List.mem_filter, List.mem_cons, decide_eq_true_eq] at hd
    rcases hd with ⟨child, ⟨hchildmem, hparent⟩, hd⟩
    have hlt : rank c.id < rank child.id := hr child hchildmem c.id hparent
    rcases hd with rfl | hd
    · exact hlt
    · exact lt_trans hlt (ih child d hd)

/-- Claim C8: in a well-formed acyclic tree — witnessed by a rank on category
ids that strictly decreases along every parent link of the store — a category
is neither among its own ancestors nor among its own descendants (both walks
are finite lists by construction). -/
theorem claim_C8 (db : Db) (rank : Nat → Nat) (c : Category)
    (hr : ∀ cat ∈ db.categories, ∀ q, cat.parent = some q → rank q < rank cat.id)
    (hc : c ∈ db.categories) :
    c ∉ Category.get_ancestors db c ∧ c ∉ Category.get_descendants db c := by
  constructor
  · intro hmem
    unfold Category.get_ancestors at hmem
    cases hp : c.parent with
    | none =>
      rw [hp] at hmem
      cases hl : db.categories.length with
      | zero => rw [hl] at hmem; simp [ancestorsFrom] at hmem
      | succ n => rw [hl] at hmem; simp [ancestorsFrom] at hmem
    | some q =>
      rw [hp] at hmem
      have h1 := ancestorsFrom_rank db rank hr db.categories.length q c hmem
      have h2 := hr c hc q hp
      omega
  · intro hmem
    have := descendantsFrom_rank db rank hr db.categories.length c c hmem
    omega

/-- Claim C8 (witness): the theorem applied to the example store with the
identity rank, at the leaf category. -/
theorem claim_C8_witness :
    (∀ cat ∈ exDb.categories, ∀ q, cat.parent = some q → (fun i => i) q < (fun i => i) cat.id) ∧
    cLeaf ∈ exDb.categories ∧
    cLeaf ∉ Category.get_ancestors exDb cLeaf ∧
    cLeaf ∉ Category.get_descendants exDb cLeaf := by
  have hr : ∀ cat ∈ exDb.categories, ∀ q, cat.parent = some q →
      (fun i => i) q < (fun i => i) cat.id := by
    intro cat hmem q hq
    simp only [exDb, cRoot, cMid, cLeaf, List.mem_cons, List.not_mem_nil, or_false] at hmem
    rcases hmem with rfl | rfl | rfl <;> simp at hq ⊢ <;> omega
  have h := claim_C8 exDb (fun i => i) cLeaf hr (by decide)
  exact ⟨hr, by decide, h.1, h.2⟩

end Products

